import Mathlib

/-!
Verification of the CBOR bridge value-translation layer.

Embedded source files:
- `src/docker/containers/python-cbor2/server.py` : `to_json_safe`,
  `from_json_safe`, `decode_cbor`, `encode_cbor`.
- `src/external-libs/python/cbor_bridge.py` : `convert_types`.

Modelling conventions:
- Python's single dynamic value universe is the mutual inductive `Py`
  (with `PyList` for Python lists and `PyEntries` for the insertion-ordered
  entry list of a Python dict).
- Python `float` is `PyFloat`: the three non-finite values are symbolic
  constructors, finite doubles are abstracted as rationals (the sources
  never do float arithmetic: they only test NaN/infinity and pass finite
  floats through unchanged, so this abstraction is exact for them).
- Python `bool` is a separate constructor, but every branch of the sources
  that tests `isinstance(x, int)` also fires on `bool` (bool is an int
  subclass in Python); the embedding reproduces that in each such branch.
- Python `int` is `ℤ` (arbitrary precision, as in CPython).
- `bytes` is `List (Fin 256)`.
- `cbor2.CBORTag` is the `tag` constructor; its constructor validates
  `isinstance(tag, int) and 0 <= tag < 2**64` (cbor2 raises TypeError
  otherwise), which the embedding of `from_json_safe` reproduces.
- Fallible Python code (raised exceptions) is `Except String`.
-/

/-- Abstraction of a Python `float`: NaN, +inf, -inf, or a finite double
(finite doubles modelled as rationals). -/
inductive PyFloat where
  | nan
  | inf
  | ninf
  | finite (q : ℚ)
deriving DecidableEq

mutual

/-- The Python value universe used by the bridge sources. -/
inductive Py where
  | none
  | bool (b : Bool)
  | int (n : ℤ)
  | float (f : PyFloat)
  | bytes (bs : List (Fin 256))
  | str (s : String)
  | list (xs : PyList)
  | dict (es : PyEntries)
  | tag (t : ℤ) (v : Py)
  | undefined
deriving DecidableEq

/-- A Python list of values. -/
inductive PyList where
  | nil
  | cons (x : Py) (xs : PyList)
deriving DecidableEq

/-- The insertion-ordered key/value entry list of a Python dict. -/
inductive PyEntries where
  | nil
  | cons (k : Py) (v : Py) (rest : PyEntries)
deriving DecidableEq

end

mutual

/-- Structural size of a `Py` value (used as recursion fuel). -/
def pySize : Py → Nat
  | .list xs => pyListSize xs + 1
  | .dict es => pyEntriesSize es + 1
  | .tag _ v => pySize v + 1
  | _ => 1

/-- Structural size of a `PyList`. -/
def pyListSize : PyList → Nat
  | .nil => 0
  | .cons x xs => pySize x + pyListSize xs + 1

/-- Structural size of a `PyEntries`. -/
def pyEntriesSize : PyEntries → Nat
  | .nil => 0
  | .cons k v rest => pySize k + pySize v + pyEntriesSize rest + 1

end

/-- Lowercase hex digit for a value below 16, as produced by Python's
`bytes.hex()`. -/
def hexChar (n : Nat) : Char :=
  if n < 10 then Char.ofNat (48 + n) else Char.ofNat (87 + n)

/-- Python `bytes.hex()`: lowercase, two digits per byte, no separators. -/
def bytesHex (bs : List (Fin 256)) : String :=
  String.mk (bs.flatMap fun b => [hexChar (b.val / 16), hexChar (b.val % 16)])

/-- Value of a hex digit, accepting `0-9`, `a-f` and `A-F` (CPython
`_PyLong_DigitValue` as used by `bytes.fromhex`). -/
def hexDigitVal (c : Char) : Option (Fin 16) :=
  if h : 48 ≤ c.toNat ∧ c.toNat ≤ 57 then some ⟨c.toNat - 48, by omega⟩
  else if h : 97 ≤ c.toNat ∧ c.toNat ≤ 102 then some ⟨c.toNat - 87, by omega⟩
  else if h : 65 ≤ c.toNat ∧ c.toNat ≤ 70 then some ⟨c.toNat - 55, by omega⟩
  else Option.none

/-- ASCII whitespace as skipped by CPython `bytes.fromhex` (all ASCII
whitespace since Python 3.11). -/
def isHexSpace (c : Char) : Bool :=
  c.toNat = 32 ∨ c.toNat = 9 ∨ c.toNat = 10 ∨ c.toNat = 11 ∨
    c.toNat = 12 ∨ c.toNat = 13

/-- Error message of CPython `bytes.fromhex` (position suffix omitted). -/
def hexErrMsg : String := "non-hexadecimal number found in fromhex() arg"

/-- Loop of CPython `bytes.fromhex`: ASCII whitespace may appear before a
digit pair (and trailing), then two hex digits form one byte; anything
else raises ValueError. -/
def fromhexAux : List Char → Except String (List (Fin 256))
  | [] => .ok []
  | c :: rest =>
    if isHexSpace c then fromhexAux rest
    else
      match hexDigitVal c with
      | Option.none => .error hexErrMsg
      | some hi =>
        match rest with
        | [] => .error hexErrMsg
        | d :: rest2 =>
          match hexDigitVal d with
          | Option.none => .error hexErrMsg
          | some lo =>
            (fromhexAux rest2).map
              (fun bs => (⟨16 * hi.val + lo.val, by
                have h1 := hi.isLt
                have h2 := lo.isLt
                omega⟩ : Fin 256) :: bs)

/-- Python `bytes.fromhex` on a string. -/
def bytes_fromhex (s : String) : Except String (List (Fin 256)) :=
  fromhexAux s.toList

/-- First value stored under a key in a dict entry list (Python dict
lookup; keys of a real Python dict are unique, so first match is the
match). -/
def pyLookup : PyEntries → Py → Option Py
  | .nil, _ => Option.none
  | .cons k0 v0 rest, k => if k0 = k then some v0 else pyLookup rest k

/-- Python `key in dict`. -/
def pyHasKey (es : PyEntries) (k : Py) : Bool :=
  (pyLookup es k).isSome

/-- Python `d[key] = value` on an insertion-ordered dict: an existing key
keeps its position and gets the new value, a new key is appended. -/
def pyDictInsert : PyEntries → Py → Py → PyEntries
  | .nil, k, v => .cons k v .nil
  | .cons k0 v0 rest, k, v =>
    if k0 = k then .cons k0 v rest
    else .cons k0 v0 (pyDictInsert rest k v)

/-- Fold a raw entry list into a Python dict, one assignment at a time. -/
def pyDictGo (acc : PyEntries) : PyEntries → PyEntries
  | .nil => acc
  | .cons k v rest => pyDictGo (pyDictInsert acc k v) rest

/-- Building a Python dict from an ordered sequence of assignments
(the semantics of `result[key] = v` in a loop, of a dict display and of a
dict comprehension). -/
def pyDictOfList (es : PyEntries) : PyEntries :=
  pyDictGo .nil es

/-- Keys of an entry list, in order. -/
def pyEntryKeys : PyEntries → List Py
  | .nil => []
  | .cons k _ rest => k :: pyEntryKeys rest

/-- Concatenation of entry lists. -/
def pyEntriesAppend : PyEntries → PyEntries → PyEntries
  | .nil, fs => fs
  | .cons k v rest, fs => .cons k v (pyEntriesAppend rest fs)

deriving instance DecidableEq for Except

example : bytesHex [222, 173, 190, 239] = "deadbeef" := by decide

example : bytes_fromhex "deadbeef" = .ok [222, 173, 190, 239] := by decide

example : bytes_fromhex "DEADbeef" = .ok [222, 173, 190, 239] := by decide

example : bytes_fromhex "de ad" = .ok [222, 173] := by decide

example : bytes_fromhex "abc" = .error hexErrMsg := by decide

example : bytes_fromhex "zz" = .error hexErrMsg := by decide

/-- Four lowercase hex digits of a value below 2^16, as in Python's
x-u escape formatting. -/
def u4hex (n : Nat) : List Char :=
  [hexChar (n / 4096 % 16), hexChar (n / 256 % 16), hexChar (n / 16 % 16),
    hexChar (n % 16)]

/-- Escape of one character by Python `json.dumps` with the default
`ensure_ascii=True`: printable ASCII except quote and backslash passes
through, the named short escapes are used for the usual control
characters, everything else (other controls and all non-ASCII) becomes
backslash-u escapes, with a surrogate pair above the BMP. -/
def jsonEscapeChar (c : Char) : List Char :=
  if c = '\\' then ['\\', '\\']
  else if c = '"' then ['\\', '"']
  else if c.toNat = 10 then ['\\', 'n']
  else if c.toNat = 13 then ['\\', 'r']
  else if c.toNat = 9 then ['\\', 't']
  else if c.toNat = 8 then ['\\', 'b']
  else if c.toNat = 12 then ['\\', 'f']
  else if 32 ≤ c.toNat ∧ c.toNat ≤ 126 then [c]
  else if c.toNat < 65536 then '\\' :: 'u' :: u4hex c.toNat
  else
    ('\\' :: 'u' :: u4hex (55296 + (c.toNat - 65536) / 1024)) ++
      ('\\' :: 'u' :: u4hex (56320 + (c.toNat - 65536) % 1024))

/-- A JSON string literal for `s`, as emitted by `json.dumps`. -/
def jsonQuote (s : String) : String :=
  "\"" ++ String.mk (s.toList.flatMap jsonEscapeChar) ++ "\""

/-- Stand-in for Python `repr` of a finite float. The sources never
inspect or compare this text, so its exact form is irrelevant to every
claim; integral doubles get Python's `N.0` shape. -/
def floatRepr (q : ℚ) : String :=
  if q.den = 1 then toString q.num ++ ".0" else toString q

/-- Text form of a float used by `json.dumps` (its `floatstr`):
the non-finite values print as `NaN`, `Infinity`, `-Infinity` (the
default `allow_nan=True`), finite floats by `repr`. -/
def floatStr : PyFloat → String
  | .nan => "NaN"
  | .inf => "Infinity"
  | .ninf => "-Infinity"
  | .finite q => floatRepr q

/-- Conversion of a dict key by `json.dumps` (its `_iterencode_dict`):
string keys pass through, float/bool/None/int keys become their text
form, any other key type raises TypeError. The resulting string is then
emitted as a quoted JSON string literal. -/
def jsonDumpsKey : Py → Except String String
  | .str s => .ok (jsonQuote s)
  | .float f => .ok (jsonQuote (floatStr f))
  | .bool b => .ok (jsonQuote (if b then "true" else "false"))
  | .none => .ok (jsonQuote "null")
  | .int n => .ok (jsonQuote (toString n))
  | _ => .error "keys must be str, int, float, bool or None"

mutual

/-- Python `json.dumps` with default options (separators `", "` and
`": "`, `ensure_ascii=True`, `allow_nan=True`): serializes None, bool,
int, float, str, list and dict; any other type raises TypeError. -/
def json_dumps : Py → Except String String
  | .none => .ok "null"
  | .bool b => .ok (if b then "true" else "false")
  | .int n => .ok (toString n)
  | .float f => .ok (floatStr f)
  | .str s => .ok (jsonQuote s)
  | .list xs =>
    (jsonDumpsList xs).map (fun parts => "[" ++ String.intercalate ", " parts ++ "]")
  | .dict es =>
    (jsonDumpsEntries es).map
      (fun parts => "\x7b" ++ String.intercalate ", " parts ++ "\x7d")
  | _ => .error "Object is not JSON serializable"

/-- Elementwise `json.dumps` over a Python list. -/
def jsonDumpsList : PyList → Except String (List String)
  | .nil => .ok []
  | .cons x xs => do
    let s ← json_dumps x
    let rest ← jsonDumpsList xs
    .ok (s :: rest)

/-- Entrywise `json.dumps` over dict entries, producing
`"key": value` fragments in order. -/
def jsonDumpsEntries : PyEntries → Except String (List String)
  | .nil => .ok []
  | .cons k v rest => do
    let ks ← jsonDumpsKey k
    let vs ← json_dumps v
    let others ← jsonDumpsEntries rest
    .ok ((ks ++ ": " ++ vs) :: others)

end

mutual

/-- `to_json_safe` from `server.py`: convert a Python value to JSON-safe
format with type markers. Order of the source's isinstance tests is
reproduced; the Boolean constructor models a Python `bool`, which the
source's `isinstance(value, int)` branch catches (bool is an int
subclass) and, being within the safe range, returns unchanged. -/
def to_json_safe : Py → Except String Py
  | .none => .ok .none
  | .bytes bs =>
    .ok (.dict (.cons (.str "__cbor_bytes__") (.str (bytesHex bs)) .nil))
  | .float .nan => .ok (.dict (.cons (.str "__cbor_float__") (.str "NaN") .nil))
  | .float .inf =>
    .ok (.dict (.cons (.str "__cbor_float__") (.str "Infinity") .nil))
  | .float .ninf =>
    .ok (.dict (.cons (.str "__cbor_float__") (.str "-Infinity") .nil))
  | .float (.finite q) => .ok (.float (.finite q))
  | .bool b => .ok (.bool b)
  | .int n =>
    .ok (if 9007199254740991 < n ∨ n < -9007199254740991
      then .str (toString n) else .int n)
  | .tag t v =>
    (to_json_safe v).map
      (fun j => .dict (.cons (.str "__cbor_tag__") (.int t)
        (.cons (.str "__cbor_value__") j .nil)))
  | .dict es => (toJsonSafeEntries es).map (fun es2 => .dict (pyDictOfList es2))
  | .list xs => (toJsonSafeList xs).map .list
  | .str s => .ok (.str s)
  | .undefined => .ok .undefined

/-- Elementwise `to_json_safe` over a Python list. -/
def toJsonSafeList : PyList → Except String PyList
  | .nil => .ok .nil
  | .cons x xs => do
    let j ← to_json_safe x
    let rest ← toJsonSafeList xs
    .ok (.cons j rest)

/-- The dict loop of `to_json_safe`: each key is coerced to a string
(bytes keys to their hex, int keys - which in Python includes bool
keys - to `str(k)`, str keys unchanged, all other keys to
`json.dumps(to_json_safe(k))`), each value is translated, and the pairs
are assigned into the result dict in order. -/
def toJsonSafeEntries : PyEntries → Except String PyEntries
  | .nil => .ok .nil
  | .cons k v rest => do
    let key : String ←
      match k with
      | .bytes bs => Except.ok (bytesHex bs)
      | .bool b => Except.ok (if b then "True" else "False")
      | .int n => Except.ok (toString n)
      | .str s => Except.ok s
      | _ => do json_dumps (← to_json_safe k)
    let j ← to_json_safe v
    let rest2 ← toJsonSafeEntries rest
    .ok (.cons (.str key) j rest2)

end

/-- The key coercion of the dict loop in `to_json_safe`, as a standalone
function: bytes keys become their hex string, bool keys take the
`isinstance(k, int)` branch and become Python `str(k)`, int keys become
their decimal string, str keys pass through, every other key becomes
`json.dumps(to_json_safe(k))`. -/
def keyStr (k : Py) : Except String String :=
  match k with
  | .bytes bs => .ok (bytesHex bs)
  | .bool b => .ok (if b then "True" else "False")
  | .int n => .ok (toString n)
  | .str s => .ok s
  | _ => do json_dumps (← to_json_safe k)

theorem toJsonSafeEntries_cons (k v : Py) (rest : PyEntries) :
    toJsonSafeEntries (.cons k v rest) =
      (do
        let key ← keyStr k
        let j ← to_json_safe v
        let rest2 ← toJsonSafeEntries rest
        Except.ok (.cons (.str key) j rest2)) := by
  cases k <;> simp [toJsonSafeEntries, keyStr]

/-- Error message of the `cbor2.CBORTag` constructor's validation. -/
def tagErrMsg : String := "CBORTag.tag must be a positive integer up to 64 bits"

/-- The checks of `from_json_safe`'s dict branch that come after the
bytes and float markers: a dict carrying both `__cbor_tag__` and
`__cbor_value__` builds a `CBORTag` (recursing on the wrapped value
first - Python evaluates the constructor's arguments before the
constructor's own tag validation runs; a Python bool tag passes
`isinstance(tag, int)` and lies in range, equal to 1 or 0); next a
`__cbor_undefined__` key produces the undefined sentinel; otherwise the
dict is rebuilt with every value translated recursively and keys kept
unchanged. -/
def fjsTagUndefMap (recVal : Py → Except String Py)
    (recEntries : PyEntries → Except String PyEntries)
    (es : PyEntries) : Except String Py :=
  match pyLookup es (.str "__cbor_tag__"),
      pyLookup es (.str "__cbor_value__") with
  | some tv, some vv =>
    (recVal vv).bind (fun inner =>
      match tv with
      | .int t =>
        if 0 ≤ t ∧ t < 18446744073709551616 then .ok (.tag t inner)
        else .error tagErrMsg
      | .bool b => .ok (.tag (if b then 1 else 0) inner)
      | _ => .error tagErrMsg)
  | _, _ =>
    match pyLookup es (.str "__cbor_undefined__") with
    | some _ => .ok .undefined
    | Option.none =>
      (recEntries es).map (fun es2 => .dict (pyDictOfList es2))

/-- The dict branch of `from_json_safe`, parameterized by the recursive
calls it makes. Marker dispatch follows the source exactly: a
`__cbor_bytes__` key wins first (a non-string payload raises TypeError
inside `bytes.fromhex`); next a `__cbor_float__` key whose payload
equals one of the three literal strings produces the non-finite float,
while any other payload falls through to the remaining checks. -/
def fjsDictBody (recVal : Py → Except String Py)
    (recEntries : PyEntries → Except String PyEntries)
    (es : PyEntries) : Except String Py :=
  match pyLookup es (.str "__cbor_bytes__") with
  | some (.str s) => (bytes_fromhex s).map .bytes
  | some _ => .error "fromhex() argument must be str"
  | Option.none =>
    match pyLookup es (.str "__cbor_float__") with
    | some fv =>
      if fv = .str "NaN" then .ok (.float .nan)
      else if fv = .str "Infinity" then .ok (.float .inf)
      else if fv = .str "-Infinity" then .ok (.float .ninf)
      else fjsTagUndefMap recVal recEntries es
    | Option.none => fjsTagUndefMap recVal recEntries es

mutual

/-- Fuel-indexed `from_json_safe` from `server.py`: convert a JSON value
with type markers back to Python. The fuel only bounds recursion depth;
`from_json_safe` below supplies enough fuel for the whole value, and the
fuel-irrelevance lemmas show the result is fuel-independent. -/
def fjsFuel : Nat → Py → Except String Py
  | 0, _ => .error "fuel"
  | n + 1, v =>
    match v with
    | .none => .ok .none
    | .dict es => fjsDictBody (fjsFuel n) (fjsFuelEntries n) es
    | .list xs => (fjsFuelList n xs).map .list
    | w => .ok w

/-- Fuel-indexed elementwise `from_json_safe` over a Python list. -/
def fjsFuelList : Nat → PyList → Except String PyList
  | _, .nil => .ok .nil
  | 0, .cons _ _ => .error "fuel"
  | n + 1, .cons x xs => do
    let y ← fjsFuel n x
    let rest ← fjsFuelList n xs
    .ok (.cons y rest)

/-- Fuel-indexed valuewise `from_json_safe` over dict entries (keys are
kept unchanged, as in the source's dict comprehension). -/
def fjsFuelEntries : Nat → PyEntries → Except String PyEntries
  | _, .nil => .ok .nil
  | 0, .cons _ _ _ => .error "fuel"
  | n + 1, .cons k v rest => do
    let v2 ← fjsFuel n v
    let rest2 ← fjsFuelEntries n rest
    .ok (.cons k v2 rest2)

end

/-- `from_json_safe` from `server.py`, with canonical fuel. -/
def from_json_safe (v : Py) : Except String Py :=
  fjsFuel (pySize v) v

/-- Elementwise `from_json_safe` over a Python list, canonical fuel. -/
def fromJsonList (xs : PyList) : Except String PyList :=
  fjsFuelList (pyListSize xs) xs

/-- Valuewise `from_json_safe` over dict entries, canonical fuel. -/
def fromJsonEntries (es : PyEntries) : Except String PyEntries :=
  fjsFuelEntries (pyEntriesSize es) es

theorem pySize_pos (v : Py) : 1 ≤ pySize v := by
  cases v <;> simp [pySize]

theorem pyLookup_size (es : PyEntries) (k w : Py)
    (h : pyLookup es k = some w) : pySize w ≤ pyEntriesSize es := by
  match es with
  | .nil => simp [pyLookup] at h
  | .cons k0 v0 rest =>
    by_cases hk : k0 = k
    · simp [pyLookup, hk] at h
      subst h
      simp [pyEntriesSize]
      omega
    · simp [pyLookup, hk] at h
      have := pyLookup_size rest k w h
      simp [pyEntriesSize]
      omega

theorem fjsTagUndefMap_congr (recVal recVal2 : Py → Except String Py)
    (recEntries recEntries2 : PyEntries → Except String PyEntries)
    (es : PyEntries)
    (hv : ∀ w, pyLookup es (.str "__cbor_value__") = some w →
      recVal w = recVal2 w)
    (he : recEntries es = recEntries2 es) :
    fjsTagUndefMap recVal recEntries es =
      fjsTagUndefMap recVal2 recEntries2 es := by
  unfold fjsTagUndefMap
  cases ht : pyLookup es (.str "__cbor_tag__") with
  | some tv =>
    cases hv2 : pyLookup es (.str "__cbor_value__") with
    | some vv => dsimp only; rw [hv vv hv2]
    | none =>
      dsimp only
      cases hu : pyLookup es (.str "__cbor_undefined__") with
      | some w => rfl
      | none => rw [he]
  | none =>
    dsimp only
    cases hu : pyLookup es (.str "__cbor_undefined__") with
    | some w => rfl
    | none => rw [he]

theorem fjsDictBody_congr (recVal recVal2 : Py → Except String Py)
    (recEntries recEntries2 : PyEntries → Except String PyEntries)
    (es : PyEntries)
    (hv : ∀ w, pyLookup es (.str "__cbor_value__") = some w →
      recVal w = recVal2 w)
    (he : recEntries es = recEntries2 es) :
    fjsDictBody recVal recEntries es = fjsDictBody recVal2 recEntries2 es := by
  unfold fjsDictBody
  cases hb : pyLookup es (.str "__cbor_bytes__") with
  | some w => cases w <;> rfl
  | none =>
    cases hf : pyLookup es (.str "__cbor_float__") with
    | some fv =>
      dsimp only
      split_ifs with h1 h2 h3
      · rfl
      · rfl
      · rfl
      · exact fjsTagUndefMap_congr recVal recVal2 recEntries recEntries2 es hv he
    | none =>
      exact fjsTagUndefMap_congr recVal recVal2 recEntries recEntries2 es hv he

mutual

theorem fjsFuel_irrel (n m : Nat) (v : Py)
    (hn : pySize v ≤ n) (hm : pySize v ≤ m) : fjsFuel n v = fjsFuel m v := by
  match n, m with
  | 0, _ => exact absurd hn (by have := pySize_pos v; omega)
  | _ + 1, 0 => exact absurd hm (by have := pySize_pos v; omega)
  | n1 + 1, m1 + 1 =>
    cases v with
    | dict es =>
      show fjsDictBody (fjsFuel n1) (fjsFuelEntries n1) es =
        fjsDictBody (fjsFuel m1) (fjsFuelEntries m1) es
      have hsz : pyEntriesSize es ≤ n1 ∧ pyEntriesSize es ≤ m1 := by
        simp [pySize] at hn hm
        omega
      apply fjsDictBody_congr
      · intro w hw
        have hws := pyLookup_size es _ w hw
        exact fjsFuel_irrel n1 m1 w (by omega) (by omega)
      · exact fjsFuelEntries_irrel n1 m1 es hsz.1 hsz.2
    | list xs =>
      show (fjsFuelList n1 xs).map Py.list = (fjsFuelList m1 xs).map Py.list
      have hsz : pyListSize xs ≤ n1 ∧ pyListSize xs ≤ m1 := by
        simp [pySize] at hn hm
        omega
      rw [fjsFuelList_irrel n1 m1 xs hsz.1 hsz.2]
    | none => rfl
    | bool b => rfl
    | int k => rfl
    | float f => rfl
    | bytes bs => rfl
    | str s => rfl
    | tag t w => rfl
    | undefined => rfl

theorem fjsFuelList_irrel (n m : Nat) (xs : PyList)
    (hn : pyListSize xs ≤ n) (hm : pyListSize xs ≤ m) :
    fjsFuelList n xs = fjsFuelList m xs := by
  match xs with
  | .nil => cases n <;> cases m <;> rfl
  | .cons x rest =>
    match n, m with
    | 0, _ => exact absurd hn (by simp [pyListSize])
    | _ + 1, 0 => exact absurd hm (by simp [pyListSize])
    | n1 + 1, m1 + 1 =>
      simp only [pyListSize] at hn hm
      have hx := pySize_pos x
      show (do
          let y ← fjsFuel n1 x
          let r ← fjsFuelList n1 rest
          Except.ok (PyList.cons y r)) = (do
          let y ← fjsFuel m1 x
          let r ← fjsFuelList m1 rest
          Except.ok (PyList.cons y r))
      have e1 : fjsFuel n1 x = fjsFuel m1 x :=
        fjsFuel_irrel n1 m1 x (by omega) (by omega)
      have e2 : fjsFuelList n1 rest = fjsFuelList m1 rest :=
        fjsFuelList_irrel n1 m1 rest (by omega) (by omega)
      rw [e1, e2]

theorem fjsFuelEntries_irrel (n m : Nat) (es : PyEntries)
    (hn : pyEntriesSize es ≤ n) (hm : pyEntriesSize es ≤ m) :
    fjsFuelEntries n es = fjsFuelEntries m es := by
  match es with
  | .nil => cases n <;> cases m <;> rfl
  | .cons k v rest =>
    match n, m with
    | 0, _ => exact absurd hn (by simp [pyEntriesSize])
    | _ + 1, 0 => exact absurd hm (by simp [pyEntriesSize])
    | n1 + 1, m1 + 1 =>
      simp only [pyEntriesSize] at hn hm
      have hk := pySize_pos k
      have hv := pySize_pos v
      show (do
          let v2 ← fjsFuel n1 v
          let r ← fjsFuelEntries n1 rest
          Except.ok (PyEntries.cons k v2 r)) = (do
          let v2 ← fjsFuel m1 v
          let r ← fjsFuelEntries m1 rest
          Except.ok (PyEntries.cons k v2 r))
      have e1 : fjsFuel n1 v = fjsFuel m1 v :=
        fjsFuel_irrel n1 m1 v (by omega) (by omega)
      have e2 : fjsFuelEntries n1 rest = fjsFuelEntries m1 rest :=
        fjsFuelEntries_irrel n1 m1 rest (by omega) (by omega)
      rw [e1, e2]

end

theorem from_json_safe_none : from_json_safe .none = .ok .none := rfl

theorem from_json_safe_bool (b : Bool) :
    from_json_safe (.bool b) = .ok (.bool b) := rfl

theorem from_json_safe_int (n : ℤ) :
    from_json_safe (.int n) = .ok (.int n) := rfl

theorem from_json_safe_float (f : PyFloat) :
    from_json_safe (.float f) = .ok (.float f) := rfl

theorem from_json_safe_bytes (bs : List (Fin 256)) :
    from_json_safe (.bytes bs) = .ok (.bytes bs) := rfl

theorem from_json_safe_str (s : String) :
    from_json_safe (.str s) = .ok (.str s) := rfl

theorem from_json_safe_tagv (t : ℤ) (v : Py) :
    from_json_safe (.tag t v) = .ok (.tag t v) := rfl

theorem from_json_safe_undefined :
    from_json_safe .undefined = .ok .undefined := rfl

theorem from_json_safe_list (xs : PyList) :
    from_json_safe (.list xs) = (fromJsonList xs).map .list := rfl

theorem fromJsonList_nil : fromJsonList .nil = .ok .nil := rfl

theorem fromJsonList_cons (x : Py) (xs : PyList) :
    fromJsonList (.cons x xs) =
      (do
        let y ← from_json_safe x
        let rest ← fromJsonList xs
        Except.ok (PyList.cons y rest)) := by
  show fjsFuelList (pyListSize (.cons x xs)) (.cons x xs) = _
  have hx := pySize_pos x
  simp only [pyListSize, fjsFuelList]
  have e1 : fjsFuel (pySize x + pyListSize xs) x = from_json_safe x :=
    fjsFuel_irrel _ _ x (by omega) (by omega)
  have e2 : fjsFuelList (pySize x + pyListSize xs) xs = fromJsonList xs :=
    fjsFuelList_irrel _ _ xs (by omega) (by omega)
  rw [e1, e2]

theorem from_json_safe_dict (es : PyEntries) :
    from_json_safe (.dict es) =
      fjsDictBody from_json_safe fromJsonEntries es := by
  show fjsDictBody (fjsFuel (pyEntriesSize es)) (fjsFuelEntries (pyEntriesSize es)) es = _
  apply fjsDictBody_congr
  · intro w hw
    have hws := pyLookup_size es _ w hw
    exact fjsFuel_irrel _ _ w (by omega) (by omega)
  · rfl

theorem fromJsonEntries_nil : fromJsonEntries .nil = .ok .nil := rfl

theorem fromJsonEntries_cons (k v : Py) (rest : PyEntries) :
    fromJsonEntries (.cons k v rest) =
      (do
        let v2 ← from_json_safe v
        let rest2 ← fromJsonEntries rest
        Except.ok (PyEntries.cons k v2 rest2)) := by
  show fjsFuelEntries (pyEntriesSize (.cons k v rest)) (.cons k v rest) = _
  have hk := pySize_pos k
  have hv := pySize_pos v
  simp only [pyEntriesSize, fjsFuelEntries]
  have e1 : fjsFuel (pySize k + pySize v + pyEntriesSize rest) v =
      from_json_safe v :=
    fjsFuel_irrel _ _ v (by omega) (by omega)
  have e2 : fjsFuelEntries (pySize k + pySize v + pyEntriesSize rest) rest =
      fromJsonEntries rest :=
    fjsFuelEntries_irrel _ _ rest (by omega) (by omega)
  rw [e1, e2]

/-- Unhashable Python values among those `convert_types` can produce as a
converted dict key (dict and list cannot be dict keys; Python raises
TypeError when such a key is inserted). -/
def pyUnhashable : Py → Bool
  | .dict _ => true
  | .list _ => true
  | _ => false

mutual

/-- `convert_types` from `cbor_bridge.py`: convert Python types to
JSON-serializable types. Bytes, non-finite floats and out-of-range ints
translate like `to_json_safe`; dict KEYS are however converted by
`convert_types` itself (not coerced to strings), and there is no
`CBORTag` branch at all, so a tag object falls into the trailing
`return value` unchanged (its wrapped value not recursed into). -/
def convert_types : Py → Except String Py
  | .bytes bs =>
    .ok (.dict (.cons (.str "__cbor_bytes__") (.str (bytesHex bs)) .nil))
  | .float .nan => .ok (.dict (.cons (.str "__cbor_float__") (.str "NaN") .nil))
  | .float .inf =>
    .ok (.dict (.cons (.str "__cbor_float__") (.str "Infinity") .nil))
  | .float .ninf =>
    .ok (.dict (.cons (.str "__cbor_float__") (.str "-Infinity") .nil))
  | .float (.finite q) => .ok (.float (.finite q))
  | .bool b => .ok (.bool b)
  | .int n =>
    .ok (if 9007199254740991 < n ∨ n < -9007199254740991
      then .str (toString n) else .int n)
  | .dict es => (convertEntries es).map (fun es2 => .dict (pyDictOfList es2))
  | .list xs => (convertList xs).map .list
  | v => .ok v

/-- Elementwise `convert_types` over a Python list. -/
def convertList : PyList → Except String PyList
  | .nil => .ok .nil
  | .cons x xs => do
    let y ← convert_types x
    let rest ← convertList xs
    .ok (.cons y rest)

/-- The dict comprehension of `convert_types`: each key and value is
converted (key expression first, then value, per entry), and inserting
an unhashable converted key raises TypeError. -/
def convertEntries : PyEntries → Except String PyEntries
  | .nil => .ok .nil
  | .cons k v rest => do
    let k2 ← convert_types k
    let v2 ← convert_types v
    if pyUnhashable k2 then .error "unhashable type"
    else do
      let rest2 ← convertEntries rest
      .ok (.cons k2 v2 rest2)

end

/-- Envelope of a failed decode/encode: `success` false plus the error
text, and no `result`, `hex` or `duration_ms` field. -/
def errEnvelope (e : String) : Py :=
  .dict (.cons (.str "success") (.bool false)
    (.cons (.str "error") (.str e) .nil))

/-- `decode_cbor` from `server.py`. The external `cbor2.loads` primitive
and the measured wall-clock duration are parameters of the model (the
backend is a black box that may reject its input; the duration comes
from a clock). Every failure inside the try block - malformed hex,
backend decode failure, translation failure - is caught and becomes the
failure envelope. -/
def decode_cbor (loads : List (Fin 256) → Except String Py) (dur : ℚ)
    (hex_string : String) : Py :=
  match bytes_fromhex hex_string with
  | .error e => errEnvelope e
  | .ok data =>
    match loads data with
    | .error e => errEnvelope e
    | .ok result =>
      match to_json_safe result with
      | .error e => errEnvelope e
      | .ok json_result =>
        .dict (.cons (.str "success") (.bool true)
          (.cons (.str "result") json_result
            (.cons (.str "duration_ms") (.float (.finite dur)) .nil)))

/-- `encode_cbor` from `server.py`, with the external `cbor2.dumps`
primitive and the measured duration as parameters. Every failure -
translation failure or backend encode failure - is caught and becomes
the failure envelope; on success the encoded bytes are reported as their
lowercase hex. -/
def encode_cbor (dumps : Py → Except String (List (Fin 256))) (dur : ℚ)
    (value : Py) : Py :=
  match from_json_safe value with
  | .error e => errEnvelope e
  | .ok py_value =>
    match dumps py_value with
    | .error e => errEnvelope e
    | .ok encoded =>
      .dict (.cons (.str "success") (.bool true)
        (.cons (.str "hex") (.str (bytesHex encoded))
          (.cons (.str "duration_ms") (.float (.finite dur)) .nil)))

mutual

/-- The round-trip claim's notion of semantic equality: structural
equality, except that an Integer whose magnitude exceeds 2^53-1 compares
equal to its decimal-digit string, and (through `PyFloat` being
symbolic) NaN compares equal to NaN. -/
def semEq : Py → Py → Bool
  | .int n, .str s =>
    decide (9007199254740991 < n ∨ n < -9007199254740991) && s == toString n
  | .list xs, .list ys => semEqList xs ys
  | .dict es, .dict fs => semEqEntries es fs
  | .tag t v, .tag u w => t == u && semEq v w
  | a, b => a == b

/-- Pointwise semantic equality on lists. -/
def semEqList : PyList → PyList → Bool
  | .nil, .nil => true
  | .cons x xs, .cons y ys => semEq x y && semEqList xs ys
  | _, _ => false

/-- Pointwise semantic equality on dict entries (keys and values). -/
def semEqEntries : PyEntries → PyEntries → Bool
  | .nil, .nil => true
  | .cons k v rest, .cons k2 v2 rest2 =>
    semEq k k2 && semEq v v2 && semEqEntries rest rest2
  | _, _ => false

end

/-- The four reserved marker keys of the JSON-safe representation. -/
def markerKeys : List String :=
  ["__cbor_bytes__", "__cbor_float__", "__cbor_tag__", "__cbor_undefined__"]

mutual

/-- Values on which the round-trip is claimed to hold after amendment:
every dict has only TextString keys, those keys are pairwise distinct
and none of them is a reserved marker key, and every tag number is a
valid `CBORTag` tag (a decoded CBOR value always satisfies the latter,
since the `CBORTag` constructor enforces it). -/
def goodVal : Py → Bool
  | .list xs => goodList xs
  | .dict es => goodEntries es && (pyEntryKeys es).Nodup
  | .tag t v => decide (0 ≤ t ∧ t < 18446744073709551616) && goodVal v
  | _ => true

/-- `goodVal` elementwise. -/
def goodList : PyList → Bool
  | .nil => true
  | .cons x xs => goodVal x && goodList xs

/-- `goodVal` for dict entries: each key a non-marker string, each value
good. -/
def goodEntries : PyEntries → Bool
  | .nil => true
  | .cons k v rest =>
    (match k with
      | .str s => decide (s ∉ markerKeys)
      | _ => false) && goodVal v && goodEntries rest

end

mutual

/-- Values on which `to_json_safe` (server.py) and `convert_types`
(cbor_bridge.py) are claimed to agree after amendment: no Tag anywhere
and every dict key a TextString. -/
def agreeVal : Py → Bool
  | .tag _ _ => false
  | .list xs => agreeList xs
  | .dict es => agreeEntries es
  | _ => true

/-- `agreeVal` elementwise. -/
def agreeList : PyList → Bool
  | .nil => true
  | .cons x xs => agreeVal x && agreeList xs

/-- `agreeVal` for dict entries: each key a TextString, each value
agreeing. -/
def agreeEntries : PyEntries → Bool
  | .nil => true
  | .cons k v rest =>
    (match k with
      | .str _ => true
      | _ => false) && agreeVal v && agreeEntries rest

end

theorem pyEntryKeys_append (a b : PyEntries) :
    pyEntryKeys (pyEntriesAppend a b) = pyEntryKeys a ++ pyEntryKeys b := by
  match a with
  | .nil => rfl
  | .cons k v rest =>
    simp [pyEntriesAppend, pyEntryKeys, pyEntryKeys_append rest b]

theorem pyEntriesAppend_nil (a : PyEntries) :
    pyEntriesAppend a .nil = a := by
  match a with
  | .nil => rfl
  | .cons k v rest => simp [pyEntriesAppend, pyEntriesAppend_nil rest]

theorem pyEntriesAppend_assoc (a b c : PyEntries) :
    pyEntriesAppend (pyEntriesAppend a b) c =
      pyEntriesAppend a (pyEntriesAppend b c) := by
  match a with
  | .nil => rfl
  | .cons k v rest =>
    simp [pyEntriesAppend, pyEntriesAppend_assoc rest b c]

theorem pyDictInsert_append (acc : PyEntries) (k v : Py)
    (h : k ∉ pyEntryKeys acc) :
    pyDictInsert acc k v = pyEntriesAppend acc (.cons k v .nil) := by
  match acc with
  | .nil => rfl
  | .cons k0 v0 rest =>
    simp [pyEntryKeys] at h
    have hne : ¬k0 = k := fun e => h.1 e.symm
    simp [pyDictInsert, pyEntriesAppend, hne,
      pyDictInsert_append rest k v h.2]

theorem pyDictGo_append (es acc : PyEntries)
    (hnd : (pyEntryKeys es).Nodup)
    (hdisj : ∀ k ∈ pyEntryKeys es, k ∉ pyEntryKeys acc) :
    pyDictGo acc es = pyEntriesAppend acc es := by
  match es with
  | .nil => simp [pyDictGo, pyEntriesAppend_nil]
  | .cons k v rest =>
    simp only [pyEntryKeys, List.nodup_cons] at hnd
    have hk : k ∉ pyEntryKeys acc := by
      apply hdisj
      simp [pyEntryKeys]
    show pyDictGo (pyDictInsert acc k v) rest = _
    rw [pyDictInsert_append acc k v hk]
    rw [pyDictGo_append rest (pyEntriesAppend acc (.cons k v .nil)) hnd.2]
    · rw [pyEntriesAppend_assoc]
      rfl
    · intro k2 hk2
      rw [pyEntryKeys_append]
      simp [pyEntryKeys]
      constructor
      · exact fun hmem => hdisj k2 (by simp [pyEntryKeys, hk2]) hmem
      · intro heq
        subst heq
        exact hnd.1 hk2

theorem pyDictOfList_nodup (es : PyEntries)
    (hnd : (pyEntryKeys es).Nodup) : pyDictOfList es = es := by
  unfold pyDictOfList
  rw [pyDictGo_append es .nil hnd (by intro k hk; simp [pyEntryKeys])]
  rfl

theorem pyLookup_mem (es : PyEntries) (k w : Py)
    (h : pyLookup es k = some w) : k ∈ pyEntryKeys es := by
  match es with
  | .nil => simp [pyLookup] at h
  | .cons k0 v0 rest =>
    by_cases hk : k0 = k
    · simp [pyEntryKeys, hk]
    · simp [pyLookup, hk] at h
      simp [pyEntryKeys]
      exact Or.inr (pyLookup_mem rest k w h)

theorem pyLookup_not_mem (es : PyEntries) (k : Py)
    (h : k ∉ pyEntryKeys es) : pyLookup es k = Option.none := by
  cases hl : pyLookup es k with
  | some w => exact absurd (pyLookup_mem es k w hl) h
  | none => rfl

theorem hexDigitVal_hexChar :
    ∀ d : Fin 16, hexDigitVal (hexChar d.val) = some d := by decide

theorem isHexSpace_hexChar :
    ∀ d : Fin 16, isHexSpace (hexChar d.val) = false := by decide

theorem fin256_reassemble (b : Fin 256)
    (h : 16 * (b.val / 16) + b.val % 16 < 256) :
    (⟨16 * (b.val / 16) + b.val % 16, h⟩ : Fin 256) = b := by
  apply Fin.ext
  simp
  omega

theorem bytes_fromhex_bytesHex (bs : List (Fin 256)) :
    bytes_fromhex (bytesHex bs) = .ok bs := by
  suffices h : ∀ l : List (Fin 256),
      fromhexAux (l.flatMap
        fun b => [hexChar (b.val / 16), hexChar (b.val % 16)]) = .ok l by
    exact h bs
  intro l
  induction l with
  | nil => rfl
  | cons b rest ih =>
    have hhi : b.val / 16 < 16 := by
      have := b.isLt
      omega
    have hlo : b.val % 16 < 16 := by
      have := b.isLt
      omega
    have e1 := hexDigitVal_hexChar ⟨b.val / 16, hhi⟩
    have e2 := hexDigitVal_hexChar ⟨b.val % 16, hlo⟩
    have e3 := isHexSpace_hexChar ⟨b.val / 16, hhi⟩
    simp only [List.flatMap_cons, List.cons_append, List.nil_append,
      fromhexAux]
    simp [e1, e2, e3, ih, Except.map, fin256_reassemble]

theorem goodEntries_no_marker (es : PyEntries) (h : goodEntries es = true)
    (m : String) (hm : m ∈ markerKeys) : (Py.str m) ∉ pyEntryKeys es := by
  match es with
  | .nil => simp [pyEntryKeys]
  | .cons k v rest =>
    simp only [goodEntries, Bool.and_eq_true] at h
    obtain ⟨⟨hk, hv⟩, hrest⟩ := h
    simp only [pyEntryKeys, List.mem_cons, not_or]
    refine ⟨?_, goodEntries_no_marker rest hrest m hm⟩
    cases k with
    | str s =>
      simp only [decide_eq_true_eq] at hk
      intro he
      have hms : m = s := by injection he
      subst hms
      exact hk hm
    | none => simp at hk
    | bool b => simp at hk
    | int n => simp at hk
    | float f => simp at hk
    | bytes bs => simp at hk
    | list xs => simp at hk
    | dict es2 => simp at hk
    | tag t w => simp at hk
    | undefined => simp at hk

mutual

theorem semEq_refl (v : Py) : semEq v v = true := by
  match v with
  | .none => rfl
  | .bool b => simp [semEq]
  | .int n => simp [semEq]
  | .float f => simp [semEq]
  | .bytes bs => simp [semEq]
  | .str s => simp [semEq]
  | .list xs => simpa [semEq] using semEqList_refl xs
  | .dict es => simpa [semEq] using semEqEntries_refl es
  | .tag t w => simp [semEq, semEq_refl w]
  | .undefined => rfl

theorem semEqList_refl (xs : PyList) : semEqList xs xs = true := by
  match xs with
  | .nil => rfl
  | .cons x rest => simp [semEqList, semEq_refl x, semEqList_refl rest]

theorem semEqEntries_refl (es : PyEntries) : semEqEntries es es = true := by
  match es with
  | .nil => rfl
  | .cons k v rest =>
    simp [semEqEntries, semEq_refl k, semEq_refl v, semEqEntries_refl rest]

end

mutual

theorem rt_val (v : Py) (h : goodVal v = true) :
    ∃ j r, to_json_safe v = .ok j ∧ from_json_safe j = .ok r ∧
      semEq v r = true := by
  match v with
  | .none => exact ⟨.none, .none, rfl, rfl, rfl⟩
  | .bool b => exact ⟨.bool b, .bool b, rfl, rfl, semEq_refl _⟩
  | .int n =>
    by_cases hr : 9007199254740991 < n ∨ n < -9007199254740991
    · refine ⟨.str (toString n), .str (toString n), ?_, rfl, ?_⟩
      · simp [to_json_safe, hr]
      · simp [semEq, hr]
    · refine ⟨.int n, .int n, ?_, rfl, semEq_refl _⟩
      simp [to_json_safe, hr]
  | .float f =>
    match f with
    | .nan =>
      exact ⟨.dict (.cons (.str "__cbor_float__") (.str "NaN") .nil),
        .float .nan, rfl, rfl, rfl⟩
    | .inf =>
      exact ⟨.dict (.cons (.str "__cbor_float__") (.str "Infinity") .nil),
        .float .inf, rfl, rfl, rfl⟩
    | .ninf =>
      exact ⟨.dict (.cons (.str "__cbor_float__") (.str "-Infinity") .nil),
        .float .ninf, rfl, rfl, rfl⟩
    | .finite q => exact ⟨.float (.finite q), .float (.finite q), rfl, rfl,
        semEq_refl _⟩
  | .bytes bs =>
    refine ⟨.dict (.cons (.str "__cbor_bytes__") (.str (bytesHex bs)) .nil),
      .bytes bs, rfl, ?_, semEq_refl _⟩
    rw [from_json_safe_dict]
    unfold fjsDictBody
    simp [pyLookup, bytes_fromhex_bytesHex, Except.map]
  | .str s => exact ⟨.str s, .str s, rfl, rfl, semEq_refl _⟩
  | .undefined => exact ⟨.undefined, .undefined, rfl, rfl, rfl⟩
  | .tag t w =>
    simp only [goodVal, Bool.and_eq_true, decide_eq_true_eq] at h
    obtain ⟨hrange, hw⟩ := h
    obtain ⟨jv, rv, e1, e2, e3⟩ := rt_val w hw
    refine ⟨.dict (.cons (.str "__cbor_tag__") (.int t)
      (.cons (.str "__cbor_value__") jv .nil)), .tag t rv, ?_, ?_, ?_⟩
    · simp [to_json_safe, e1, Except.map]
    · rw [from_json_safe_dict]
      unfold fjsDictBody fjsTagUndefMap
      simp [pyLookup, e2, hrange, Except.bind]
    · simp [semEq, e3]
  | .list xs =>
    simp only [goodVal] at h
    obtain ⟨js, rs, e1, e2, e3⟩ := rt_list xs h
    refine ⟨.list js, .list rs, ?_, ?_, ?_⟩
    · simp [to_json_safe, e1, Except.map]
    · rw [from_json_safe_list, e2]
      rfl
    · simp [semEq, e3]
  | .dict es =>
    simp only [goodVal, Bool.and_eq_true, decide_eq_true_eq] at h
    obtain ⟨hge, hnd⟩ := h
    obtain ⟨js, rs, e1, e2, e3, ek1, ek2⟩ := rt_entries es hge
    have hndjs : (pyEntryKeys js).Nodup := ek1 ▸ hnd
    have hndrs : (pyEntryKeys rs).Nodup := ek2 ▸ hnd
    have hlk : ∀ m ∈ markerKeys, pyLookup js (.str m) = Option.none := by
      intro m hm
      apply pyLookup_not_mem
      rw [ek1]
      exact goodEntries_no_marker es hge m hm
    refine ⟨.dict js, .dict rs, ?_, ?_, ?_⟩
    · simp [to_json_safe, e1, Except.map, pyDictOfList_nodup js hndjs]
    · rw [from_json_safe_dict]
      unfold fjsDictBody fjsTagUndefMap
      rw [hlk "__cbor_bytes__" (by simp [markerKeys]),
        hlk "__cbor_float__" (by simp [markerKeys]),
        hlk "__cbor_tag__" (by simp [markerKeys]),
        hlk "__cbor_undefined__" (by simp [markerKeys])]
      simp [e2, Except.map, pyDictOfList_nodup rs hndrs]
    · simp [semEq, e3]

theorem rt_list (xs : PyList) (h : goodList xs = true) :
    ∃ js rs, toJsonSafeList xs = .ok js ∧ fromJsonList js = .ok rs ∧
      semEqList xs rs = true := by
  match xs with
  | .nil => exact ⟨.nil, .nil, rfl, rfl, rfl⟩
  | .cons x rest =>
    simp only [goodList, Bool.and_eq_true] at h
    obtain ⟨jx, rx, e1, e2, e3⟩ := rt_val x h.1
    obtain ⟨js, rs, f1, f2, f3⟩ := rt_list rest h.2
    refine ⟨.cons jx js, .cons rx rs, ?_, ?_, ?_⟩
    · simp only [toJsonSafeList, e1, f1]
      rfl
    · rw [fromJsonList_cons, e2, f2]
      rfl
    · simp [semEqList, e3, f3]

theorem rt_entries (es : PyEntries) (h : goodEntries es = true) :
    ∃ js rs, toJsonSafeEntries es = .ok js ∧ fromJsonEntries js = .ok rs ∧
      semEqEntries es rs = true ∧ pyEntryKeys js = pyEntryKeys es ∧
      pyEntryKeys rs = pyEntryKeys es := by
  match es with
  | .nil => exact ⟨.nil, .nil, rfl, rfl, rfl, rfl, rfl⟩
  | .cons k v rest =>
    simp only [goodEntries, Bool.and_eq_true] at h
    obtain ⟨⟨hk, hv⟩, hrest⟩ := h
    obtain ⟨jv, rv, e1, e2, e3⟩ := rt_val v hv
    obtain ⟨js, rs, f1, f2, f3, fk1, fk2⟩ := rt_entries rest hrest
    cases k with
    | str s =>
      refine ⟨.cons (.str s) jv js, .cons (.str s) rv rs, ?_, ?_, ?_, ?_, ?_⟩
      · rw [toJsonSafeEntries_cons, e1, f1]
        rfl
      · rw [fromJsonEntries_cons, e2, f2]
        rfl
      · simp [semEqEntries, semEq_refl, e3, f3]
      · simp [pyEntryKeys, fk1]
      · simp [pyEntryKeys, fk2]
    | none => simp at hk
    | bool b => simp at hk
    | int n => simp at hk
    | float f => simp at hk
    | bytes bs => simp at hk
    | list xs => simp at hk
    | dict es2 => simp at hk
    | tag t w => simp at hk
    | undefined => simp at hk

end

mutual

theorem agree_val (v : Py) (h : agreeVal v = true) :
    to_json_safe v = convert_types v := by
  match v with
  | .none => rfl
  | .bool b => rfl
  | .int n => rfl
  | .float f => cases f <;> rfl
  | .bytes bs => rfl
  | .str s => rfl
  | .undefined => rfl
  | .tag t w => simp [agreeVal] at h
  | .list xs =>
    simp only [agreeVal] at h
    show (toJsonSafeList xs).map Py.list = (convertList xs).map Py.list
    rw [agree_list xs h]
  | .dict es =>
    simp only [agreeVal] at h
    show (toJsonSafeEntries es).map _ = (convertEntries es).map _
    rw [agree_entries es h]

theorem agree_list (xs : PyList) (h : agreeList xs = true) :
    toJsonSafeList xs = convertList xs := by
  match xs with
  | .nil => rfl
  | .cons x rest =>
    simp only [agreeList, Bool.and_eq_true] at h
    show (do
        let j ← to_json_safe x
        let r ← toJsonSafeList rest
        Except.ok (PyList.cons j r)) = _
    rw [agree_val x h.1, agree_list rest h.2]
    rfl

theorem agree_entries (es : PyEntries) (h : agreeEntries es = true) :
    toJsonSafeEntries es = convertEntries es := by
  match es with
  | .nil => rfl
  | .cons k v rest =>
    simp only [agreeEntries, Bool.and_eq_true] at h
    obtain ⟨⟨hk, hv⟩, hrest⟩ := h
    cases k with
    | str s =>
      rw [toJsonSafeEntries_cons]
      show (do
          let key ← Except.ok s
          let j ← to_json_safe v
          let rest2 ← toJsonSafeEntries rest
          Except.ok (PyEntries.cons (.str key) j rest2)) = _
      rw [agree_val v hv, agree_entries rest hrest]
      show (do
          let j ← convert_types v
          let rest2 ← convertEntries rest
          Except.ok (PyEntries.cons (.str s) j rest2)) =
        (do
          let k2 ← Except.ok (Py.str s)
          let v2 ← convert_types v
          if pyUnhashable k2 then Except.error "unhashable type"
          else do
            let rest2 ← convertEntries rest
            Except.ok (PyEntries.cons k2 v2 rest2))
      cases hc : convert_types v with
      | error e => rfl
      | ok v2 => rfl
    | none => simp at hk
    | bool b => simp at hk
    | int n => simp at hk
    | float f => simp at hk
    | bytes bs => simp at hk
    | list xs => simp at hk
    | dict es2 => simp at hk
    | tag t w => simp at hk
    | undefined => simp at hk

end

theorem char_toNat_ofNat_small (n : Nat) (h1 : 97 ≤ n) (h2 : n ≤ 122) :
    (Char.ofNat n).toNat = n := by
  unfold Char.ofNat
  rw [dif_pos]
  · rfl
  · constructor
    omega

theorem toLower_toNat_of_upper (c : Char) (h : c.toNat ≥ 65 ∧ c.toNat ≤ 90) :
    c.toLower.toNat = c.toNat + 32 := by
  unfold Char.toLower
  rw [if_pos h]
  exact char_toNat_ofNat_small _ (by omega) (by omega)

theorem toLower_eq_self (c : Char) (h : ¬(c.toNat ≥ 65 ∧ c.toNat ≤ 90)) :
    c.toLower = c := by
  unfold Char.toLower
  rw [if_neg h]

theorem hexDigitVal_toLower (c : Char) :
    hexDigitVal c.toLower = hexDigitVal c := by
  by_cases h : c.toNat ≥ 65 ∧ c.toNat ≤ 90
  · have hl := toLower_toNat_of_upper c h
    simp only [hexDigitVal, hl]
    split_ifs <;>
      first
        | rfl
        | (exfalso; omega)
  · rw [toLower_eq_self c h]

theorem isHexSpace_toLower (c : Char) :
    isHexSpace c.toLower = isHexSpace c := by
  by_cases h : c.toNat ≥ 65 ∧ c.toNat ≤ 90
  · have hl := toLower_toNat_of_upper c h
    simp only [isHexSpace, hl]
    rw [decide_eq_decide]
    omega
  · rw [toLower_eq_self c h]

theorem fromhexAux_toLower (cs : List Char) :
    fromhexAux (cs.map Char.toLower) = fromhexAux cs := by
  match cs with
  | [] => rfl
  | c :: rest =>
    simp only [List.map_cons, fromhexAux, isHexSpace_toLower,
      hexDigitVal_toLower]
    by_cases hsp : isHexSpace c
    · rw [if_pos hsp, if_pos hsp]
      exact fromhexAux_toLower rest
    · rw [if_neg hsp, if_neg hsp]
      cases hexDigitVal c with
      | none => rfl
      | some hi =>
        cases rest with
        | nil => rfl
        | cons d rest2 =>
          simp only [List.map_cons, hexDigitVal_toLower]
          cases hexDigitVal d with
          | none => rfl
          | some lo => rw [fromhexAux_toLower rest2]

/-- C3: `to_json_safe` emits an Integer as a JSON number exactly when
-(2^53-1) <= n <= 2^53-1, both bounds inclusive; outside that range it
emits the decimal string, as witnessed at all four boundary values. -/
theorem C3_boundary :
    (∀ n : ℤ, to_json_safe (.int n) =
      .ok (if -9007199254740991 ≤ n ∧ n ≤ 9007199254740991
        then .int n else .str (toString n))) ∧
    (∀ n : ℤ, to_json_safe (.int n) = .ok (.int n) ↔
      -9007199254740991 ≤ n ∧ n ≤ 9007199254740991) ∧
    to_json_safe (.int 9007199254740991) = .ok (.int 9007199254740991) ∧
    to_json_safe (.int (-9007199254740991)) =
      .ok (.int (-9007199254740991)) ∧
    to_json_safe (.int 9007199254740992) = .ok (.str "9007199254740992") ∧
    to_json_safe (.int (-9007199254740992)) =
      .ok (.str "-9007199254740992") := by
  have key : ∀ n : ℤ, to_json_safe (.int n) =
      .ok (if -9007199254740991 ≤ n ∧ n ≤ 9007199254740991
        then .int n else .str (toString n)) := by
    intro n
    show Except.ok (if 9007199254740991 < n ∨ n < -9007199254740991
      then Py.str (toString n) else .int n) = _
    by_cases hr : 9007199254740991 < n ∨ n < -9007199254740991
    · rw [if_pos hr, if_neg (by omega)]
    · rw [if_neg hr, if_pos (by omega)]
  refine ⟨key, ?_, by decide, by decide, by decide, by decide⟩
  intro n
  constructor
  · intro he
    by_contra hout
    rw [key n, if_neg hout] at he
    simp at he
  · intro hin
    rw [key n, if_pos hin]

/-- C4: for every backend, duration and input, `decode_cbor` and
`encode_cbor` always return an envelope (no exception escapes the
model's total functions): on failure exactly
success=false plus an error string (no result, hex or duration_ms
field), on success exactly success=true plus result (decode) or hex
(encode) plus duration_ms. -/
theorem C4_envelope :
    (∀ (loads : List (Fin 256) → Except String Py) (dur : ℚ) (hx : String),
      (∃ e, decode_cbor loads dur hx = errEnvelope e) ∨
      (∃ j, decode_cbor loads dur hx =
        .dict (.cons (.str "success") (.bool true)
          (.cons (.str "result") j
            (.cons (.str "duration_ms") (.float (.finite dur)) .nil))))) ∧
    (∀ (dumps : Py → Except String (List (Fin 256))) (dur : ℚ) (value : Py),
      (∃ e, encode_cbor dumps dur value = errEnvelope e) ∨
      (∃ hx, encode_cbor dumps dur value =
        .dict (.cons (.str "success") (.bool true)
          (.cons (.str "hex") (.str hx)
            (.cons (.str "duration_ms") (.float (.finite dur)) .nil))))) := by
  constructor
  · intro loads dur hx
    cases hb : bytes_fromhex hx with
    | error e => exact Or.inl ⟨e, by unfold decode_cbor; rw [hb]⟩
    | ok data =>
      cases hl : loads data with
      | error e => exact Or.inl ⟨e, by unfold decode_cbor; rw [hb]; dsimp only; rw [hl]⟩
      | ok result =>
        cases ht : to_json_safe result with
        | error e => exact Or.inl ⟨e, by unfold decode_cbor; rw [hb]; dsimp only; rw [hl]; dsimp only; rw [ht]⟩
        | ok j => exact Or.inr ⟨j, by unfold decode_cbor; rw [hb]; dsimp only; rw [hl]; dsimp only; rw [ht]⟩
  · intro dumps dur value
    cases hf : from_json_safe value with
    | error e => exact Or.inl ⟨e, by unfold encode_cbor; rw [hf]⟩
    | ok pv =>
      cases hd : dumps pv with
      | error e => exact Or.inl ⟨e, by unfold encode_cbor; rw [hf]; dsimp only; rw [hd]⟩
      | ok encoded =>
        exact Or.inr ⟨bytesHex encoded, by unfold encode_cbor; rw [hf]; dsimp only; rw [hd]⟩

/-- C6: the code has no Undefined branch in `to_json_safe`: the
undefined sentinel falls through the trailing `return value` unchanged
and is NOT turned into the undefined marker object (contradicting the
function's own JSON-safe contract), while `from_json_safe` does map the
undefined marker object back to the undefined sentinel. -/
theorem C6_undefined_behavior :
    to_json_safe .undefined = .ok .undefined ∧
    Py.undefined ≠
      .dict (.cons (.str "__cbor_undefined__") (.bool true) .nil) ∧
    from_json_safe
        (.dict (.cons (.str "__cbor_undefined__") (.bool true) .nil)) =
      .ok .undefined := by
  refine ⟨rfl, by decide, by decide⟩

/-- C7: `from_json_safe` passes every plain JSON number, string and
boolean (and any float) through unchanged; in particular a string of
decimal digits stays a TextString and is never promoted to an Integer. -/
theorem C7_passthrough :
    (∀ n : ℤ, from_json_safe (.int n) = .ok (.int n)) ∧
    (∀ s : String, from_json_safe (.str s) = .ok (.str s)) ∧
    (∀ b : Bool, from_json_safe (.bool b) = .ok (.bool b)) ∧
    (∀ f : PyFloat, from_json_safe (.float f) = .ok (.float f)) ∧
    from_json_safe (.str "123") = .ok (.str "123") := by
  exact ⟨fun n => rfl, fun s => rfl, fun b => rfl, fun f => rfl, rfl⟩

/-- C10: `to_json_safe`'s key coercion is not injective: the distinct
native keys Integer 1 and TextString "1" both become the JSON key "1",
the later entry silently overwrites the earlier one (keeping the first
entry's position), the entry count shrinks from 2 to 1, and no error is
raised. -/
theorem C10_key_collision :
    keyStr (.int 1) = .ok "1" ∧
    keyStr (.str "1") = .ok "1" ∧
    Py.int 1 ≠ Py.str "1" ∧
    to_json_safe (.dict (.cons (.int 1) (.str "a")
        (.cons (.str "1") (.str "b") .nil))) =
      .ok (.dict (.cons (.str "1") (.str "b") .nil)) ∧
    (pyEntryKeys (.cons (.int 1) (.str "a")
      (.cons (.str "1") (.str "b") .nil))).length = 2 ∧
    (pyEntryKeys (.cons (.str "1") (.str "b") .nil)).length = 1 := by
  refine ⟨by decide, by decide, by decide, by decide, by decide, by decide⟩

/-- C1 counterexample: the Map with single Integer key 1 does not round
trip - its key comes back as the TextString "1", and the claim's
semantic equality (which only excuses integers beyond 2^53-1) rejects
the result. -/
theorem C1_counterexample :
    to_json_safe (.dict (.cons (.int 1) .none .nil)) =
      .ok (.dict (.cons (.str "1") .none .nil)) ∧
    from_json_safe (.dict (.cons (.str "1") .none .nil)) =
      .ok (.dict (.cons (.str "1") .none .nil)) ∧
    semEq (.dict (.cons (.int 1) .none .nil))
      (.dict (.cons (.str "1") .none .nil)) = false := by
  refine ⟨by decide, by decide, by decide⟩

/-- C1 (amended): for every native value whose Maps all have TextString
keys that are pairwise distinct and not reserved marker keys, and whose
Tag numbers are valid CBORTag numbers, `from_json_safe` after
`to_json_safe` succeeds and yields a value semantically equal to the
original (an Integer beyond 2^53-1 in magnitude compares equal to its
decimal-digit string; NaN compares equal to NaN). -/
theorem C1_roundtrip (v : Py) (h : goodVal v = true) :
    ∃ j r, to_json_safe v = .ok j ∧ from_json_safe j = .ok r ∧
      semEq v r = true :=
  rt_val v h

theorem C1_roundtrip_witness :
    goodVal (.dict (.cons (.str "k") (.int 9007199254740992)
      (.cons (.str "b") (.bytes [222, 173])
        (.cons (.str "t") (.tag 42 (.list (.cons (.float .nan) .nil)))
          .nil)))) = true ∧
    (∃ j r, to_json_safe (.dict (.cons (.str "k") (.int 9007199254740992)
      (.cons (.str "b") (.bytes [222, 173])
        (.cons (.str "t") (.tag 42 (.list (.cons (.float .nan) .nil)))
          .nil)))) = .ok j ∧ from_json_safe j = .ok r ∧
      semEq (.dict (.cons (.str "k") (.int 9007199254740992)
        (.cons (.str "b") (.bytes [222, 173])
          (.cons (.str "t") (.tag 42 (.list (.cons (.float .nan) .nil)))
            .nil)))) r = true) :=
  ⟨by decide, C1_roundtrip _ (by decide)⟩

/-- C2 counterexample: a Boolean Map key does not become the JSON string
literal of its JSON-safe translation: Python's bool is an int subclass,
so the key True takes the Integer branch and becomes str(True) = "True",
while JSON-encoding its JSON-safe translation would give "true"; "True"
is not parseable JSON, so the key is not recoverable either. -/
theorem C2_counterexample :
    to_json_safe (.dict (.cons (.bool true) .none .nil)) =
      .ok (.dict (.cons (.str "True") .none .nil)) ∧
    to_json_safe (.bool true) = .ok (.bool true) ∧
    json_dumps (.bool true) = .ok "true" ∧
    ("True" : String) ≠ "true" := by
  refine ⟨by decide, by decide, by decide, by decide⟩

/-- C2 (amended): `to_json_safe` coerces Map keys as follows: a
ByteString key becomes the hex string of its bytes; a Boolean key takes
the source's `isinstance(k, int)` branch (bool being an int subclass in
Python) and becomes str(k), i.e. "True"/"False", not a JSON literal and
not JSON-recoverable; an Integer key becomes its decimal string; a
TextString key passes through; every other key type becomes
`json.dumps` of its JSON-safe translation. Entries are translated in
insertion order, and whenever the coerced keys are distinct the
resulting object holds exactly the coerced entries in that order. -/
theorem C2_key_translation :
    (∀ bs, keyStr (.bytes bs) = .ok (bytesHex bs)) ∧
    (∀ b, keyStr (.bool b) = .ok (if b then "True" else "False")) ∧
    (∀ n : ℤ, keyStr (.int n) = .ok (toString n)) ∧
    (∀ s, keyStr (.str s) = .ok s) ∧
    (∀ f, keyStr (.float f) = (to_json_safe (.float f)).bind json_dumps) ∧
    (∀ t w, keyStr (.tag t w) =
      (to_json_safe (.tag t w)).bind json_dumps) ∧
    (∀ xs, keyStr (.list xs) = (to_json_safe (.list xs)).bind json_dumps) ∧
    (∀ es, keyStr (.dict es) = (to_json_safe (.dict es)).bind json_dumps) ∧
    keyStr .none = .ok "null" ∧
    (∀ k v rest, toJsonSafeEntries (.cons k v rest) =
      (do
        let key ← keyStr k
        let j ← to_json_safe v
        let rest2 ← toJsonSafeEntries rest
        Except.ok (.cons (.str key) j rest2))) ∧
    (∀ es js, toJsonSafeEntries es = .ok js → (pyEntryKeys js).Nodup →
      to_json_safe (.dict es) = .ok (.dict js)) := by
  refine ⟨fun bs => rfl, fun b => rfl, fun n => rfl, fun s => rfl,
    fun f => rfl, fun t w => rfl, fun xs => rfl, fun es => rfl, by decide,
    toJsonSafeEntries_cons, ?_⟩
  intro es js h1 h2
  show (toJsonSafeEntries es).map (fun es2 => Py.dict (pyDictOfList es2)) = _
  rw [h1]
  show Except.ok (Py.dict (pyDictOfList js)) = _
  rw [pyDictOfList_nodup js h2]

theorem C2_key_translation_witness :
    toJsonSafeEntries (.cons (.bytes [222]) .none
        (.cons (.int 7) (.bool false) .nil)) =
      .ok (.cons (.str "de") .none (.cons (.str "7") (.bool false) .nil)) ∧
    (pyEntryKeys (.cons (.str "de") .none
      (.cons (.str "7") (.bool false) .nil))).Nodup ∧
    to_json_safe (.dict (.cons (.bytes [222]) .none
        (.cons (.int 7) (.bool false) .nil))) =
      .ok (.dict (.cons (.str "de") .none
        (.cons (.str "7") (.bool false) .nil))) :=
  ⟨by decide, by decide,
    C2_key_translation.2.2.2.2.2.2.2.2.2.2 _ _ (by decide) (by decide)⟩

/-- C5 counterexample: an object whose float marker holds any string
other than the three literals is NOT an error: the source's float branch
falls through (there is no MalformedMarker anywhere in the code) and the
object is translated as a plain map, unchanged. -/
theorem C5_counterexample :
    from_json_safe
        (.dict (.cons (.str "__cbor_float__") (.str "bogus") .nil)) =
      .ok (.dict (.cons (.str "__cbor_float__") (.str "bogus") .nil)) := by
  decide

/-- C5 (amended): for the float marker object, `from_json_safe` returns
the NaN, +Infinity or -Infinity float when the marker string is "NaN",
"Infinity" or "-Infinity" respectively; for any other marker string the
float branch falls through and the object is translated as a plain map
(no error is raised - the code defines no MalformedMarker error). -/
theorem C5_float_marker :
    (∀ es, pyLookup es (.str "__cbor_bytes__") = Option.none →
      pyLookup es (.str "__cbor_float__") = some (.str "NaN") →
      from_json_safe (.dict es) = .ok (.float .nan)) ∧
    (∀ es, pyLookup es (.str "__cbor_bytes__") = Option.none →
      pyLookup es (.str "__cbor_float__") = some (.str "Infinity") →
      from_json_safe (.dict es) = .ok (.float .inf)) ∧
    (∀ es, pyLookup es (.str "__cbor_bytes__") = Option.none →
      pyLookup es (.str "__cbor_float__") = some (.str "-Infinity") →
      from_json_safe (.dict es) = .ok (.float .ninf)) ∧
    (∀ s : String, s ≠ "NaN" → s ≠ "Infinity" → s ≠ "-Infinity" →
      from_json_safe
          (.dict (.cons (.str "__cbor_float__") (.str s) .nil)) =
        .ok (.dict (.cons (.str "__cbor_float__") (.str s) .nil))) := by
  refine ⟨?_, ?_, ?_, ?_⟩
  · intro es h1 h2
    rw [from_json_safe_dict]
    unfold fjsDictBody
    rw [h1, h2]
    rfl
  · intro es h1 h2
    rw [from_json_safe_dict]
    unfold fjsDictBody
    rw [h1, h2]
    rfl
  · intro es h1 h2
    rw [from_json_safe_dict]
    unfold fjsDictBody
    rw [h1, h2]
    rfl
  intro s h1 h2 h3
  rw [from_json_safe_dict]
  unfold fjsDictBody fjsTagUndefMap
  simp [pyLookup, h1, h2, h3, fromJsonEntries_cons, fromJsonEntries_nil,
    from_json_safe_str, pyDictOfList, pyDictGo, pyDictInsert, Except.bind,
    Except.map]
  rfl

theorem C5_float_marker_witness :
    (pyLookup (.cons (.str "x") (.int 1)
        (.cons (.str "__cbor_float__") (.str "NaN") .nil))
      (.str "__cbor_bytes__") = Option.none ∧
    pyLookup (.cons (.str "x") (.int 1)
        (.cons (.str "__cbor_float__") (.str "NaN") .nil))
      (.str "__cbor_float__") = some (.str "NaN") ∧
    from_json_safe (.dict (.cons (.str "x") (.int 1)
        (.cons (.str "__cbor_float__") (.str "NaN") .nil))) =
      .ok (.float .nan)) ∧
    ("nan" : String) ≠ "NaN" ∧
    from_json_safe
        (.dict (.cons (.str "__cbor_float__") (.str "nan") .nil)) =
      .ok (.dict (.cons (.str "__cbor_float__") (.str "nan") .nil)) :=
  ⟨⟨by decide, by decide, C5_float_marker.1 _ (by decide) (by decide)⟩,
    by decide,
    C5_float_marker.2.2.2 "nan" (by decide) (by decide) (by decide)⟩

/-- C8 counterexample: a bytes marker whose hex string contains a space
(not a hex digit) does not fail: CPython's `bytes.fromhex` skips ASCII
whitespace between byte pairs, so "de ad" decodes to the two bytes de
ad. -/
theorem C8_counterexample :
    from_json_safe
        (.dict (.cons (.str "__cbor_bytes__") (.str "de ad") .nil)) =
      .ok (.bytes [222, 173]) := by decide

/-- C8 (amended): for every bytes marker object, `from_json_safe`
returns exactly `bytes.fromhex` of the marker string (as a ByteString on
success, the error otherwise); `fromhex` accepts uppercase and lowercase
digits alike (lowercasing every character of the input never changes the
result), fails on an odd number of digits and on a character that is
neither a hex digit nor whitespace, but skips ASCII whitespace between
byte pairs; the hex string produced by `to_json_safe`'s own lowercase
encoding always parses back to the original bytes. -/
theorem C8_bytes_marker :
    (∀ es s, pyLookup es (.str "__cbor_bytes__") = some (.str s) →
      from_json_safe (.dict es) = (bytes_fromhex s).map .bytes) ∧
    bytes_fromhex "DEadBEef" = .ok [222, 173, 190, 239] ∧
    bytes_fromhex "deadbeef" = .ok [222, 173, 190, 239] ∧
    bytes_fromhex "abc" = .error hexErrMsg ∧
    bytes_fromhex "zz" = .error hexErrMsg ∧
    bytes_fromhex "de ad" = .ok [222, 173] ∧
    (∀ s : String,
      bytes_fromhex (String.mk (s.toList.map Char.toLower)) =
        bytes_fromhex s) ∧
    (∀ bs, bytes_fromhex (bytesHex bs) = .ok bs) := by
  refine ⟨?_, by decide, by decide, by decide, by decide, by decide,
    ?_, bytes_fromhex_bytesHex⟩
  · intro es s h
    rw [from_json_safe_dict]
    unfold fjsDictBody
    rw [h]
  · intro s
    exact fromhexAux_toLower s.toList

theorem C8_bytes_marker_witness :
    pyLookup (.cons (.str "__cbor_bytes__") (.str "deadbeef") .nil)
      (.str "__cbor_bytes__") = some (.str "deadbeef") ∧
    from_json_safe
        (.dict (.cons (.str "__cbor_bytes__") (.str "deadbeef") .nil)) =
      (bytes_fromhex "deadbeef").map .bytes :=
  ⟨by decide, C8_bytes_marker.1 _ "deadbeef" (by decide)⟩

/-- C9 counterexample: the two translation functions disagree: on a Tag
value `to_json_safe` produces the tag marker object while
`convert_types` (which has no CBORTag branch) returns the tag object
unchanged; on a Map with an Integer key `to_json_safe` coerces the key
to its decimal string while `convert_types` keeps it an Integer. -/
theorem C9_counterexample :
    to_json_safe (.tag 42 (.str "x")) =
      .ok (.dict (.cons (.str "__cbor_tag__") (.int 42)
        (.cons (.str "__cbor_value__") (.str "x") .nil))) ∧
    convert_types (.tag 42 (.str "x")) = .ok (.tag 42 (.str "x")) ∧
    to_json_safe (.tag 42 (.str "x")) ≠ convert_types (.tag 42 (.str "x")) ∧
    to_json_safe (.dict (.cons (.int 1) .none .nil)) =
      .ok (.dict (.cons (.str "1") .none .nil)) ∧
    convert_types (.dict (.cons (.int 1) .none .nil)) =
      .ok (.dict (.cons (.int 1) .none .nil)) ∧
    to_json_safe (.dict (.cons (.int 1) .none .nil)) ≠
      convert_types (.dict (.cons (.int 1) .none .nil)) := by
  refine ⟨by decide, by decide, by decide, by decide, by decide, by decide⟩

/-- C9 (amended): on every value containing no Tag and no Map with a
non-TextString key, `to_json_safe` of server.py and `convert_types` of
cbor_bridge.py compute the same mapping. -/
theorem C9_agreement (v : Py) (h : agreeVal v = true) :
    to_json_safe v = convert_types v :=
  agree_val v h

theorem C9_agreement_witness :
    agreeVal (.dict (.cons (.str "a") (.int 9007199254740992)
      (.cons (.str "b") (.list (.cons (.bytes [1, 2])
        (.cons (.float .inf) .nil))) .nil))) = true ∧
    to_json_safe (.dict (.cons (.str "a") (.int 9007199254740992)
      (.cons (.str "b") (.list (.cons (.bytes [1, 2])
        (.cons (.float .inf) .nil))) .nil))) =
      convert_types (.dict (.cons (.str "a") (.int 9007199254740992)
        (.cons (.str "b") (.list (.cons (.bytes [1, 2])
          (.cons (.float .inf) .nil))) .nil))) :=
  ⟨by decide, C9_agreement _ (by decide)⟩
